import Mathlib

/-!
Verification development for the logo-crawler repository
(`py/logocrawler/crawler.py`, `py/logocrawler/main.py`).

The Python source is shallowly embedded below.  Status constants, the URL
normaliser `standardise_url`, the JSON-LD extractor `extract_jsonld_logo`
with its inner recursive `extract_logo`, the favicon extractor
`extract_favicon`, the default fallback `fallback_favicon`, the per-attempt
record builder `fetch_logo`, the worker's routing step and the queue-driven
`run` loop are all translated from the source.  Wall-clock aspects
(backoff sleeps, roundtrip timings, the worker-pool interleaving) are not
modelled: the worker routing of a dequeued task is worker-local and
deterministic, so the queue loop is modelled as its FIFO sequentialisation,
which preserves each task's lifecycle and the multiset of produced results.
-/

/-- Character-list test: does `l` begin with the character list `p`?
Used to build the model of Python's substring operator and of
`str.startswith`. -/
def beginsWithL : List Char → List Char → Bool
  | [], _ => true
  | _ :: _, [] => false
  | p :: ps, c :: cs => p == c && beginsWithL ps cs

/-- Character-list test: does `l` contain `p` as a contiguous run? -/
def hasSubL (p : List Char) : List Char → Bool
  | [] => beginsWithL p []
  | c :: cs => beginsWithL p (c :: cs) || hasSubL p cs

/-- Model of Python's `s.startswith(p)`. -/
def beginsWith (s p : String) : Bool := beginsWithL p.data s.data

/-- Model of Python's substring operator `p in s` on strings. -/
def containsStr (s p : String) : Bool := hasSubL p.data s.data

/-- Model of Python's `s.endswith(p)` (used to state the favicon tie-break
example from the spec). -/
def strEndsWith (s p : String) : Bool := beginsWithL p.data.reverse s.data.reverse

/-- Model of Python's `s.lower()` (ASCII lowering, which is what the
crawler's inputs exercise). -/
def lowerStr (s : String) : String := String.mk (s.data.map Char.toLower)

/-- Model of `urlunparse(urlparse(url)._replace(query="", fragment=""))`
(crawler.py lines 109-111): `urlsplit` cuts the fragment at the first `#`
and the query at the first `?` before it, and reassembling with both fields
empty yields the text before the first of the two markers.  (Faithful for
URLs whose scheme is already lower-case; `urlparse` would additionally
lower-case an upper-case scheme.) -/
def stripQueryFragment (s : String) : String :=
  String.mk (s.data.takeWhile fun c => !(c == '?') && !(c == '#'))

/-- Embedding of `LogoCrawler.standardise_url` (crawler.py lines 100-111).
It always returns a string; there is no code path returning `None`. -/
def LogoCrawler.standardise_url (domain url : String) : String :=
  stripQueryFragment
    (if beginsWith url "//" then "https:" ++ url
     else if !containsStr url "http" && !containsStr url "data:image" then
       if !beginsWith url "/" then "https://" ++ domain ++ "/" ++ url
       else "https://" ++ domain ++ url
     else url)

mutual
/-- JSON values as produced by `json.loads` (numbers collapsed to `Int`;
no claim inspects numeric values).  The field list of an object keeps the
insertion order of the Python dict; lookups match the first occurrence. -/
inductive Json where
  | null : Json
  | bool (b : Bool) : Json
  | num (n : Int) : Json
  | str (s : String) : Json
  | arr (elems : JsonList) : Json
  | obj (fields : JsonFields) : Json

/-- A list of JSON values (spelled out so that the extractor's recursion is
structural). -/
inductive JsonList where
  | nil : JsonList
  | cons (head : Json) (tail : JsonList) : JsonList

/-- The ordered key/value pairs of a JSON object. -/
inductive JsonFields where
  | nil : JsonFields
  | cons (key : String) (val : Json) (tail : JsonFields) : JsonFields
end

/-- Python truthiness of a JSON value (`if result:` in `extract_logo`'s
callers): `None`, `False`, `0`, `""`, `[]` and `{}` are falsy. -/
def truthy : Json → Bool
  | .null => false
  | .bool b => b
  | .num n => n != 0
  | .str s => s != ""
  | .arr .nil => false
  | .arr (.cons _ _) => true
  | .obj .nil => false
  | .obj (.cons _ _ _) => true

/-- Walks an object's fields for `"url"` (`if "url" in data: return
data["url"]`, crawler.py lines 139-140): the value is returned raw, without
recursion. -/
def urlWalk : JsonFields → Option Json
  | .nil => none
  | .cons k v rest => if k = "url" then some v else urlWalk rest

/-- Models `for entry in data["@graph"]` when `data["@graph"]` is a dict:
Python iterates its keys, `extract_logo` returns each key string as-is, and
the loop returns the first truthy one, i.e. the first non-empty key. -/
def keyIter : JsonFields → Option Json
  | .nil => none
  | .cons k _ rest => if k ≠ "" then some (.str k) else keyIter rest

/-- Models `for entry in data["@graph"]` when `data["@graph"]` is a string:
Python iterates its characters; every one-character string is truthy, so the
loop returns the first character (as a string), if any. -/
def charIter (s : String) : Option Json :=
  match s.data with
  | [] => none
  | c :: _ => some (.str (String.singleton c))

/-- Python's `"logo" in data["publisher"]` when the value is a list:
membership compares elements with `==`, which for the string probe matches
exactly the equal string elements. -/
def listContainsStr : JsonList → String → Bool
  | .nil, _ => false
  | .cons x rest, needle =>
      (match x with | .str s => s == needle | _ => false) || listContainsStr rest needle

mutual
/-- Embedding of the inner `extract_logo` of
`LogoCrawler.extract_jsonld_logo` (crawler.py lines 122-149).  The
`Except Unit` layer models a `TypeError` escaping from Python's `in`,
subscript or iteration on an unsupported value; such an exception is caught
by the `try` in the enclosing block loop.  `Json.null` models Python's
`None` result. -/
def extract_logo : Json → Except Unit Json
  | .str s => .ok (.str s)
  | .obj fields =>
      match logoWalk fields with
      | some r => r
      | none =>
          match graphWalk fields with
          | .error e => .error e
          | .ok (some j) => .ok j
          | .ok none =>
              match pubWalk fields with
              | .error e => .error e
              | .ok (some j) => .ok j
              | .ok none =>
                  match urlWalk fields with
                  | some v => .ok v
                  | none => .ok .null
  | .arr items =>
      match listLoop items with
      | .error e => .error e
      | .ok (some j) => .ok j
      | .ok none => .ok .null
  | _ => .ok .null

/-- Finds the key `"logo"` (exact, case-sensitive dict lookup) and returns
`extract_logo` of its value (`if "logo" in data: return
extract_logo(data["logo"])`). -/
def logoWalk : JsonFields → Option (Except Unit Json)
  | .nil => none
  | .cons k v rest => if k = "logo" then some (extract_logo v) else logoWalk rest

/-- Finds the key `"@graph"` and runs the `for entry in data["@graph"]`
loop; `.ok none` means the key is absent or the loop found nothing truthy,
so control falls through to the `publisher` check. -/
def graphWalk : JsonFields → Except Unit (Option Json)
  | .nil => .ok none
  | .cons k v rest =>
      if k = "@graph" then
        match v with
        | .arr items => listLoop items
        | .obj fs => .ok (keyIter fs)
        | .str s => .ok (charIter s)
        | _ => .error ()
      else graphWalk rest

/-- Finds the key `"publisher"` and models `"publisher" in data and "logo"
in data["publisher"]` followed by `return
extract_logo(data["publisher"]["logo"])`; subscripting a list or string
with `"logo"` raises `TypeError`, as does `in` on `null`/number/bool. -/
def pubWalk : JsonFields → Except Unit (Option Json)
  | .nil => .ok none
  | .cons k v rest =>
      if k = "publisher" then
        match v with
        | .obj pf =>
            match logoWalk pf with
            | some (.error e) => .error e
            | some (.ok j) => .ok (some j)
            | none => .ok none
        | .arr items => if listContainsStr items "logo" then .error () else .ok none
        | .str s => if containsStr s "logo" then .error () else .ok none
        | _ => .error ()
      else pubWalk rest

/-- The `for item in data` loop of the list case (and of the `@graph`
case): first truthy `extract_logo` result wins; `.ok none` means the loop
exhausted the list. -/
def listLoop : JsonList → Except Unit (Option Json)
  | .nil => .ok none
  | .cons x rest =>
      match extract_logo x with
      | .error e => .error e
      | .ok j => if truthy j then .ok (some j) else listLoop rest
end

/-- A `<script type="application/ld+json">` element as the extractor sees
it: `content` is `element.string` (absent when the element has no single
string child) and `parsed` is the outcome of `json.loads(content)`
(`none` = the parse raised). -/
structure ScriptBlock where
  content : Option String
  parsed : Option Json

/-- The block pre-filter `if not element.string or "logo" not in
element.string: continue` (crawler.py line 152). -/
def blockEligible (b : ScriptBlock) : Bool :=
  match b.content with
  | none => false
  | some s => (s != "") && containsStr s "logo"

/-- Processing of one block inside the loop of `extract_jsonld_logo`
(crawler.py lines 151-161): skip ineligible blocks; a JSON parse failure,
a `TypeError` escaping `extract_logo`, or an `AttributeError` from
`standardise_url` on a non-string candidate are all swallowed by the
`try`, producing no candidate; a truthy string candidate is normalised and
returned. -/
def processBlock (domain : String) (b : ScriptBlock) : Option String :=
  if blockEligible b then
    match b.parsed with
    | none => none
    | some data =>
        match extract_logo data with
        | .error _ => none
        | .ok j =>
            if truthy j then
              match j with
              | .str s => some (LogoCrawler.standardise_url domain s)
              | _ => none
            else none
  else none

/-- Embedding of `LogoCrawler.extract_jsonld_logo` (crawler.py lines
113-162): first block that yields a candidate wins; otherwise `None`. -/
def LogoCrawler.extract_jsonld_logo (domain : String) : List ScriptBlock → Option String
  | [] => none
  | b :: rest =>
      match processBlock domain b with
      | some u => some u
      | none => LogoCrawler.extract_jsonld_logo domain rest

/-- Python's `max(group, key=len)`: the first element of maximal length
(later elements replace the running maximum only when strictly longer). -/
def maxByLen : List String → String
  | [] => ""
  | x :: xs => xs.foldl (fun acc h => if h.length > acc.length then h else acc) x

/-- The `for group in [pngs, icos, hrefs]` loop of `extract_favicon`
(crawler.py lines 168-171). -/
def faviconLoop (domain : String) : List (List String) → Option String
  | [] => none
  | g :: rest =>
      if g ≠ [] then some (LogoCrawler.standardise_url domain (maxByLen g))
      else faviconLoop domain rest

/-- Embedding of `LogoCrawler.extract_favicon` (crawler.py lines 164-171).
The argument is the deduplicated list of `href` values of the icon link
elements (`list({el["href"] for el in elements if el.has_attr("href")})`,
in the set's iteration order). -/
def LogoCrawler.extract_favicon (domain : String) (hrefs : List String) : Option String :=
  faviconLoop domain
    [hrefs.filter fun h => containsStr (lowerStr h) "png",
     hrefs.filter fun h => containsStr (lowerStr h) "ico",
     hrefs]

/-- Definition following the spec's own words for the favicon tie-break
(spec section 4.2(b)), for the refinement comparison with the code's
`extract_favicon`: prefer the png group, else the ico group, else the full
set, and pick the longest href of the chosen group, normalised. -/
def faviconSpecSelect (domain : String) (hrefs : List String) : Option String :=
  let pngs := hrefs.filter fun h => containsStr (lowerStr h) "png"
  let icos := hrefs.filter fun h => containsStr (lowerStr h) "ico"
  if pngs ≠ [] then some (LogoCrawler.standardise_url domain (maxByLen pngs))
  else if icos ≠ [] then some (LogoCrawler.standardise_url domain (maxByLen icos))
  else if hrefs ≠ [] then some (LogoCrawler.standardise_url domain (maxByLen hrefs))
  else none

/-- Embedding of `LogoCrawler.fallback_favicon` (crawler.py lines 173-174). -/
def LogoCrawler.fallback_favicon (domain : String) : String :=
  "https://" ++ domain ++ "/favicon.ico"

/-- The status constants of crawler.py lines 63-67. -/
def LOGO_FOUND : String := "JSONLD_LOGO_FOUND"

/-- Status meaning the extraction chain fell through every tier (crawler.py
line 64). -/
def NOTHING_FOUND : String := "NOTHING_FOUND"

/-- Status for a favicon-link hit (crawler.py line 65). -/
def FAVICON_FOUND : String := "FAVICON_FOUND"

/-- Status for the default-path fallback hit (crawler.py line 66). -/
def FALLBACK_FAVICON_FOUND : String := "FALLBACK_FAVICON_FOUND"

/-- Status for a transport-level failure (crawler.py line 67). -/
def FAILURE_MSG : String := "FAILURE"

/-- The worker's success test `status in {LOGO_FOUND, FAVICON_FOUND,
FALLBACK_FAVICON_FOUND}` (crawler.py lines 300-304 and 314). -/
def isFound (status : String) : Bool :=
  status == LOGO_FOUND || status == FAVICON_FOUND || status == FALLBACK_FAVICON_FOUND

/-- The per-attempt result dict built by `fetch_logo` (crawler.py lines
220-256).  The wall-clock `roundtrip` field is omitted. -/
structure FetchResult where
  domain : String
  logo : String
  status : String
  jsonld_logo : Option String
  favicon_logo : Option String
  fallback_logo : Option String
  source : String
  error : Option String
deriving Repr, DecidableEq, Inhabited

/-- The parsed page a successful fetch hands to the extraction chain:
the JSON-LD script blocks and the deduplicated `href` values of the icon
link elements (crawler.py lines 188-190 and 165). -/
structure Page where
  scripts : List ScriptBlock
  linkHrefs : List String

/-- Outcome of one `session.get` round (crawler.py lines 181-187 and 244):
either the parsed page, or the message of the raised exception/timeout. -/
inductive FetchOutcome where
  | success (page : Page) : FetchOutcome
  | failure (errMsg : String) : FetchOutcome

/-- Python truthiness of `jsonld_logo` / `favicon_logo` (an optional
string): `None` and `""` are falsy. -/
def optTruthy : Option String → Bool
  | none => false
  | some s => s != ""

/-- Embedding of `LogoCrawler.fetch_logo` (crawler.py lines 176-256),
as a function of the transport outcome: on an exception the FAILURE record
with the captured message; on success the first-match-wins chain over
`extract_jsonld_logo`, `extract_favicon` and `fallback_favicon`, with the
dead `NOTHING_FOUND` record when all three candidates are falsy. -/
def LogoCrawler.fetch_logo (domain : String) : FetchOutcome → FetchResult
  | .failure e =>
      { domain := domain, logo := "", status := FAILURE_MSG, jsonld_logo := none,
        favicon_logo := none, fallback_logo := none, source := "none", error := some e }
  | .success page =>
      if optTruthy (LogoCrawler.extract_jsonld_logo domain page.scripts) then
        { domain := domain,
          logo := (LogoCrawler.extract_jsonld_logo domain page.scripts).getD "",
          status := LOGO_FOUND,
          jsonld_logo := LogoCrawler.extract_jsonld_logo domain page.scripts,
          favicon_logo := LogoCrawler.extract_favicon domain page.linkHrefs,
          fallback_logo := some (LogoCrawler.fallback_favicon domain),
          source := "jsonld_logo", error := none }
      else if optTruthy (LogoCrawler.extract_favicon domain page.linkHrefs) then
        { domain := domain,
          logo := (LogoCrawler.extract_favicon domain page.linkHrefs).getD "",
          status := FAVICON_FOUND,
          jsonld_logo := LogoCrawler.extract_jsonld_logo domain page.scripts,
          favicon_logo := LogoCrawler.extract_favicon domain page.linkHrefs,
          fallback_logo := some (LogoCrawler.fallback_favicon domain),
          source := "favicon_logo", error := none }
      else if LogoCrawler.fallback_favicon domain ≠ "" then
        { domain := domain,
          logo := LogoCrawler.fallback_favicon domain,
          status := FALLBACK_FAVICON_FOUND,
          jsonld_logo := LogoCrawler.extract_jsonld_logo domain page.scripts,
          favicon_logo := LogoCrawler.extract_favicon domain page.linkHrefs,
          fallback_logo := some (LogoCrawler.fallback_favicon domain),
          source := "fallback_logo", error := none }
      else
        { domain := domain, logo := "", status := NOTHING_FOUND, jsonld_logo := none,
          favicon_logo := none, fallback_logo := none, source := "none",
          error := some NOTHING_FOUND }

/-- A queue Task Record (crawler.py lines 90-97): `retry` is the 1-based
number of the upcoming attempt; `attempts` keeps the `error_or_none`
component of each completed attempt (the wall-clock duration component and
the `last_attempt_timestamp` backoff bookkeeping are not modelled). -/
structure TaskRec where
  domain : String
  retry : Nat
  attempts : List (Option String)
deriving Repr, DecidableEq, Inhabited

/-- A finalized Result Record: the last attempt's `fetch_logo` dict with
the accumulated `attempts` history attached (`result["attempts"] =
task["attempts"]`, crawler.py line 311). -/
structure FinalResult extends FetchResult where
  attempts : List (Option String)
deriving Repr, DecidableEq, Inhabited

/-- Crawler configuration: `max_retry` (constructor default 3). -/
structure WorkerCfg where
  max_retry : Nat
deriving Repr, DecidableEq

/-- One worker iteration on a dequeued task (crawler.py lines 299-363),
parameterised over the per-attempt fetch function `fr` (the code calls
`self.fetch_logo`, which the repository's own tests replace by stubs; the
worker's own exception guard produces the same FAILURE-shaped record).
The attempt entry is `None` on a found status, else the captured error
(`result.get("error", "Unknown error")`); a found status finalizes with
success, `NOTHING_FOUND` below `max_retry` re-enqueues with `retry + 1`,
and everything else — including every `FAILURE` — finalizes as a failure. -/
def LogoCrawler.stepTask (cfg : WorkerCfg) (fr : String → Nat → FetchResult) (t : TaskRec) :
    Sum FinalResult TaskRec :=
  if isFound (fr t.domain t.retry).status then
    .inl ⟨fr t.domain t.retry, t.attempts ++ [none]⟩
  else if (fr t.domain t.retry).status = NOTHING_FOUND ∧ t.retry < cfg.max_retry then
    .inr ⟨t.domain, t.retry + 1,
          t.attempts ++ [some ((fr t.domain t.retry).error.getD "Unknown error")]⟩
  else
    .inl ⟨fr t.domain t.retry,
          t.attempts ++ [some ((fr t.domain t.retry).error.getD "Unknown error")]⟩

/-- Termination measure of one task: how many further attempts it can
still consume (at least 1, at most `max_retry` for a fresh task). -/
def weightT (cfg : WorkerCfg) (t : TaskRec) : Nat :=
  cfg.max_retry + 1 - min t.retry cfg.max_retry

/-- Termination measure of a whole queue. -/
def totalWeight (cfg : WorkerCfg) (q : List TaskRec) : Nat :=
  (q.map (weightT cfg)).sum

/-- The FIFO worker loop (crawler.py lines 258-365): pop a task, step it,
append the result on finalization or push the retry task to the back of
the queue.  Structured over an explicit step budget; `LogoCrawler.run`
supplies `totalWeight`, which the lemmas below prove sufficient, so the
budget-exhausted branch is never taken. -/
def runQueueFuel (cfg : WorkerCfg) (fr : String → Nat → FetchResult) :
    Nat → List TaskRec → List FinalResult → List FinalResult
  | _, [], acc => acc
  | 0, _ :: _, acc => acc
  | fuel + 1, t :: rest, acc =>
      match LogoCrawler.stepTask cfg fr t with
      | .inl r => runQueueFuel cfg fr fuel rest (acc ++ [r])
      | .inr t' => runQueueFuel cfg fr fuel (rest ++ [t']) acc

/-- A freshly enqueued Task Record (crawler.py lines 90-97): first attempt,
empty history. -/
def initTask (d : String) : TaskRec := { domain := d, retry := 1, attempts := [] }

/-- Embedding of `LogoCrawler.run` (crawler.py lines 367-378): one task per
submitted domain, processed by the worker loop until the queue drains.
The bounded worker pool only interleaves independent task lifecycles, so
the FIFO sequentialisation preserves each task's outcome and the multiset
of results. -/
def LogoCrawler.run (cfg : WorkerCfg) (fr : String → Nat → FetchResult)
    (domains : List String) : List FinalResult :=
  runQueueFuel cfg fr (totalWeight cfg (domains.map initTask)) (domains.map initTask) []

/-- The result a single task is driven to by repeated `stepTask`
iterations, with its own sufficient budget. -/
def processTaskFuel (cfg : WorkerCfg) (fr : String → Nat → FetchResult) :
    Nat → TaskRec → Option FinalResult
  | 0, _ => none
  | fuel + 1, t =>
      match LogoCrawler.stepTask cfg fr t with
      | .inl r => some r
      | .inr t' => processTaskFuel cfg fr fuel t'

/-- The finalized record of one task (total: the budget `weightT` always
suffices, see `processTaskFuel_weight`). -/
def taskResult (cfg : WorkerCfg) (fr : String → Nat → FetchResult) (t : TaskRec) : FinalResult :=
  (processTaskFuel cfg fr (weightT cfg t) t).getD default

/-- Post-run value of the worker-maintained `self.successes` counter:
incremented exactly once per finalized result whose status is one of the
three found statuses (crawler.py lines 314-321). -/
def crawler_successes (results : List FinalResult) : Nat :=
  results.countP fun r => isFound r.status

/-- The `Success` count of `summarize` (main.py line 53): only
`LOGO_FOUND` and `FAVICON_FOUND` qualify. -/
def summarize_success (results : List FinalResult) : Nat :=
  results.countP fun r => r.status == LOGO_FOUND || r.status == FAVICON_FOUND

/-- The `Failure` count of `summarize` (main.py line 54): only
`NOTHING_FOUND` and `FAILURE` qualify. -/
def summarize_fail (results : List FinalResult) : Nat :=
  results.countP fun r => r.status == NOTHING_FOUND || r.status == FAILURE_MSG

/-- A per-attempt fetch function that always raises at the transport level
(used for concrete counterexamples): every attempt of every domain is the
`fetch_logo` FAILURE record for a timeout. -/
def failingFetch : String → Nat → FetchResult :=
  fun d _ => LogoCrawler.fetch_logo d (.failure "connection timeout")

/-- A per-attempt fetch stub that always reports `NOTHING_FOUND`,
mirroring the `always_fail` stub of `test_worker_max_retries_exceeded`
(crawler.py lines 1134-1145). -/
def nothingFetch : String → Nat → FetchResult :=
  fun d _ =>
    { domain := d, logo := "", status := NOTHING_FOUND, jsonld_logo := none,
      favicon_logo := none, fallback_logo := none, source := "none",
      error := some "No logo found" }

/-- A transport outcome function that always fails (used for the C9
witness). -/
def failingOutcome : String → Nat → FetchOutcome :=
  fun _ _ => .failure "boom"

/-- Checks that none of an object's keys is one of the four exactly-spelled
keys the extractor matches (used to state case-sensitivity of the key
search). -/
def noSpecialKeys : JsonFields → Bool
  | .nil => true
  | .cons k _ rest =>
      !(k == "logo") && !(k == "@graph") && !(k == "publisher") && !(k == "url") &&
        noSpecialKeys rest

/-- A fallback-sourced result record (used for the C10 witness). -/
def fallbackRecord : FinalResult :=
  ⟨{ domain := "a.com", logo := "https://a.com/favicon.ico",
     status := FALLBACK_FAVICON_FOUND, jsonld_logo := none, favicon_logo := none,
     fallback_logo := some "https://a.com/favicon.ico", source := "fallback_logo",
     error := none }, [none]⟩

theorem weightT_pos (cfg : WorkerCfg) (t : TaskRec) : 1 ≤ weightT cfg t := by
  unfold weightT
  omega

theorem stepTask_inr_shape (cfg : WorkerCfg) (fr : String → Nat → FetchResult)
    (t t' : TaskRec) (h : LogoCrawler.stepTask cfg fr t = .inr t') :
    (fr t.domain t.retry).status = NOTHING_FOUND ∧ t.retry < cfg.max_retry ∧
      t' = ⟨t.domain, t.retry + 1,
            t.attempts ++ [some ((fr t.domain t.retry).error.getD "Unknown error")]⟩ := by
  unfold LogoCrawler.stepTask at h
  split at h
  · exact absurd h (by simp)
  · split at h
    · next h2 =>
        refine ⟨h2.1, h2.2, ?_⟩
        injection h with h3
        exact h3.symm
    · exact absurd h (by simp)

theorem taskResult_inl (cfg : WorkerCfg) (fr : String → Nat → FetchResult)
    (t : TaskRec) (r : FinalResult) (h : LogoCrawler.stepTask cfg fr t = .inl r) :
    taskResult cfg fr t = r := by
  obtain ⟨n, hn⟩ : ∃ n, weightT cfg t = n + 1 :=
    ⟨weightT cfg t - 1, by have := weightT_pos cfg t; omega⟩
  rw [taskResult, hn]
  simp [processTaskFuel, h]

theorem taskResult_inr (cfg : WorkerCfg) (fr : String → Nat → FetchResult)
    (t t' : TaskRec) (h : LogoCrawler.stepTask cfg fr t = .inr t') :
    taskResult cfg fr t = taskResult cfg fr t' := by
  obtain ⟨-, hlt, ht'⟩ := stepTask_inr_shape cfg fr t t' h
  have hw : weightT cfg t = weightT cfg t' + 1 := by
    subst ht'
    simp only [weightT]
    omega
  rw [taskResult, taskResult, hw]
  simp [processTaskFuel, h]

theorem runQueueFuel_perm (cfg : WorkerCfg) (fr : String → Nat → FetchResult) :
    ∀ (fuel : Nat) (q : List TaskRec) (acc : List FinalResult),
      totalWeight cfg q ≤ fuel →
      List.Perm (runQueueFuel cfg fr fuel q acc) (acc ++ q.map (taskResult cfg fr)) := by
  intro fuel
  induction fuel with
  | zero =>
      intro q acc hq
      match q with
      | [] => simp [runQueueFuel]
      | t :: rest =>
          exfalso
          have h1 := weightT_pos cfg t
          simp [totalWeight] at hq
          omega
  | succ fuel ih =>
      intro q acc hq
      match q with
      | [] => simp [runQueueFuel]
      | t :: rest =>
          have hwt := weightT_pos cfg t
          have hqw : totalWeight cfg (t :: rest) = weightT cfg t + totalWeight cfg rest := by
            simp [totalWeight]
          rw [runQueueFuel]
          cases hstep : LogoCrawler.stepTask cfg fr t with
          | inl r =>
              have hrest : totalWeight cfg rest ≤ fuel := by omega
              have hperm := ih rest (acc ++ [r]) hrest
              have hr : taskResult cfg fr t = r := taskResult_inl cfg fr t r hstep
              rw [List.map_cons, hr]
              simpa using hperm
          | inr t' =>
              obtain ⟨-, hlt, ht'⟩ := stepTask_inr_shape cfg fr t t' hstep
              have hw : weightT cfg t = weightT cfg t' + 1 := by
                subst ht'
                simp only [weightT]
                omega
              have hq' : totalWeight cfg (rest ++ [t']) ≤ fuel := by
                simp only [totalWeight, List.map_append, List.sum_append] at *
                simp only [List.map_cons, List.sum_cons, List.map_nil, List.sum_nil] at *
                omega
              have hperm := ih (rest ++ [t']) acc hq'
              have ht : taskResult cfg fr t = taskResult cfg fr t' :=
                taskResult_inr cfg fr t t' hstep
              rw [List.map_cons, ht]
              rw [List.map_append, List.map_cons, List.map_nil] at hperm
              exact hperm.trans
                (List.Perm.append_left acc (List.perm_append_singleton _ _))

theorem run_perm (cfg : WorkerCfg) (fr : String → Nat → FetchResult)
    (domains : List String) :
    List.Perm (LogoCrawler.run cfg fr domains)
      (domains.map fun d => taskResult cfg fr (initTask d)) := by
  have h := runQueueFuel_perm cfg fr (totalWeight cfg (domains.map initTask))
    (domains.map initTask) [] (le_refl _)
  simpa [LogoCrawler.run, List.map_map, Function.comp] using h

theorem fallback_ne_empty (d : String) : LogoCrawler.fallback_favicon d ≠ "" := by
  intro h
  unfold LogoCrawler.fallback_favicon at h
  have h2 := congrArg String.length h
  rw [String.length_append, String.length_append] at h2
  have e1 : ("https://" : String).length = 8 := rfl
  have e2 : ("/favicon.ico" : String).length = 12 := rfl
  have e3 : ("" : String).length = 0 := rfl
  omega

theorem fetch_logo_status_ne_nothing (d : String) (o : FetchOutcome) :
    (LogoCrawler.fetch_logo d o).status ≠ NOTHING_FOUND := by
  cases o with
  | failure e =>
      simp only [LogoCrawler.fetch_logo]
      decide
  | success page =>
      simp only [LogoCrawler.fetch_logo]
      split_ifs with h1 h2 h3
      · show LOGO_FOUND ≠ NOTHING_FOUND
        decide
      · show FAVICON_FOUND ≠ NOTHING_FOUND
        decide
      · show FALLBACK_FAVICON_FOUND ≠ NOTHING_FOUND
        decide
      · rw [not_ne_iff] at h3
        exact absurd h3 (fallback_ne_empty d)

theorem taskResult_single_attempt (cfg : WorkerCfg) (fr : String → Nat → FetchResult)
    (t : TaskRec) (h : (fr t.domain t.retry).status ≠ NOTHING_FOUND) :
    (taskResult cfg fr t).attempts.length = t.attempts.length + 1 := by
  cases hf : isFound (fr t.domain t.retry).status with
  | true =>
      have hstep : LogoCrawler.stepTask cfg fr t =
          .inl ⟨fr t.domain t.retry, t.attempts ++ [none]⟩ := by
        simp [LogoCrawler.stepTask, hf]
      rw [taskResult_inl cfg fr t _ hstep]
      simp
  | false =>
      have hstep : LogoCrawler.stepTask cfg fr t =
          .inl ⟨fr t.domain t.retry,
                t.attempts ++ [some ((fr t.domain t.retry).error.getD "Unknown error")]⟩ := by
        simp [LogoCrawler.stepTask, hf, h]
      rw [taskResult_inl cfg fr t _ hstep]
      simp

theorem isFound_nothing : isFound NOTHING_FOUND = false := by decide

theorem taskResult_nothing (cfg : WorkerCfg) (fr : String → Nat → FetchResult) :
    ∀ (n : Nat) (t : TaskRec), (∀ k, (fr t.domain k).status = NOTHING_FOUND) →
      t.retry ≤ cfg.max_retry → cfg.max_retry - t.retry = n →
      (taskResult cfg fr t).attempts.length = t.attempts.length + (n + 1) ∧
        (taskResult cfg fr t).status = NOTHING_FOUND := by
  intro n
  induction n with
  | zero =>
      intro t hnf hle hsub
      have hf : isFound (fr t.domain t.retry).status = false := by
        rw [hnf t.retry]
        decide
      have hnlt : ¬ t.retry < cfg.max_retry := by omega
      have hstep : LogoCrawler.stepTask cfg fr t =
          .inl ⟨fr t.domain t.retry,
                t.attempts ++ [some ((fr t.domain t.retry).error.getD "Unknown error")]⟩ := by
        simp [LogoCrawler.stepTask, hf, hnlt]
      rw [taskResult_inl cfg fr t _ hstep]
      exact ⟨by simp, hnf t.retry⟩
  | succ n ih =>
      intro t hnf hle hsub
      have hlt : t.retry < cfg.max_retry := by omega
      have hf : isFound (fr t.domain t.retry).status = false := by
        rw [hnf t.retry]
        decide
      have hstep : LogoCrawler.stepTask cfg fr t =
          .inr ⟨t.domain, t.retry + 1,
                t.attempts ++ [some ((fr t.domain t.retry).error.getD "Unknown error")]⟩ := by
        simp [LogoCrawler.stepTask, hf, hnf t.retry, hlt, isFound_nothing]
      rw [taskResult_inr cfg fr t _ hstep]
      have hrec := ih ⟨t.domain, t.retry + 1,
          t.attempts ++ [some ((fr t.domain t.retry).error.getD "Unknown error")]⟩
        (by intro k; exact hnf k)
        (by show t.retry + 1 ≤ cfg.max_retry; omega)
        (by show cfg.max_retry - (t.retry + 1) = n; omega)
      refine ⟨?_, hrec.2⟩
      rw [hrec.1]
      simp only [List.length_append, List.length_cons, List.length_nil]
      omega

theorem countP_add_le_of_disjoint {α : Type} (l : List α) (p q : α → Bool)
    (h : ∀ a, p a = true → q a = false) : l.countP p + l.countP q ≤ l.length := by
  induction l with
  | nil => simp
  | cons b bs ih =>
      rw [List.countP_cons, List.countP_cons, List.length_cons]
      split_ifs with h1 h2 h3
      · exact absurd h2 (by simp [h b h1])
      · omega
      · omega
      · omega

theorem countP_add_lt_of_mem {α : Type} (l : List α) (p q : α → Bool) (a : α)
    (ha : a ∈ l) (hpa : p a = false) (hqa : q a = false)
    (h : ∀ x, p x = true → q x = false) : l.countP p + l.countP q < l.length := by
  induction l with
  | nil => cases ha
  | cons b bs ih =>
      rw [List.countP_cons, List.countP_cons, List.length_cons]
      rcases List.mem_cons.mp ha with hb | hb
      · subst hb
        have hle := countP_add_le_of_disjoint bs p q h
        split_ifs with h1 h2 h3
        · exact absurd h1 (by simp [hpa])
        · exact absurd h1 (by simp [hpa])
        · exact absurd h3 (by simp [hqa])
        · omega
      · have hlt := ih hb
        split_ifs with h1 h2 h3
        · exact absurd h2 (by simp [h b h1])
        · omega
        · omega
        · omega

theorem countP_lt_of_mem {α : Type} (l : List α) (p q : α → Bool) (a : α)
    (ha : a ∈ l) (hpa : p a = false) (hqa : q a = true)
    (h : ∀ x, p x = true → q x = true) : l.countP p < l.countP q := by
  induction l with
  | nil => cases ha
  | cons b bs ih =>
      rcases List.mem_cons.mp ha with hb | hb
      · subst hb
        have hle : bs.countP p ≤ bs.countP q :=
          List.countP_mono_left fun x _ hx => h x hx
        have hnp : ¬ (p a = true) := by simp [hpa]
        rw [List.countP_cons_of_neg _ _ hnp, List.countP_cons_of_pos _ _ hqa]
        omega
      · have hlt := ih hb
        cases hp : p b
        · have hnp : ¬ (p b = true) := by simp [hp]
          rw [List.countP_cons_of_neg _ _ hnp]
          cases hq : q b
          · have hnq : ¬ (q b = true) := by simp [hq]
            rw [List.countP_cons_of_neg _ _ hnq]
            omega
          · rw [List.countP_cons_of_pos _ _ hq]
            omega
        · have hqb := h b hp
          rw [List.countP_cons_of_pos _ _ hp, List.countP_cons_of_pos _ _ hqb]
          omega

theorem logoWalk_none : ∀ (fs : JsonFields), noSpecialKeys fs = true → logoWalk fs = none
  | .nil, _ => rfl
  | .cons k v rest, h => by
      simp only [noSpecialKeys, Bool.and_eq_true, Bool.not_eq_true',
        beq_eq_false_iff_ne] at h
      obtain ⟨⟨⟨⟨h1, h2⟩, h3⟩, h4⟩, h5⟩ := h
      simp only [logoWalk]
      rw [if_neg h1]
      exact logoWalk_none rest h5

theorem urlWalk_none : ∀ (fs : JsonFields), noSpecialKeys fs = true → urlWalk fs = none
  | .nil, _ => rfl
  | .cons k v rest, h => by
      simp only [noSpecialKeys, Bool.and_eq_true, Bool.not_eq_true',
        beq_eq_false_iff_ne] at h
      obtain ⟨⟨⟨⟨h1, h2⟩, h3⟩, h4⟩, h5⟩ := h
      simp only [urlWalk]
      rw [if_neg h4]
      exact urlWalk_none rest h5

theorem graphWalk_none_fuel :
    ∀ (n : Nat) (fs : JsonFields), sizeOf fs ≤ n → noSpecialKeys fs = true →
      graphWalk fs = .ok none := by
  intro n
  induction n with
  | zero =>
      intro fs hs h
      cases fs with
      | nil => rfl
      | cons k v rest => simp at hs
  | succ n ih =>
      intro fs hs h
      cases fs with
      | nil => rfl
      | cons k v rest =>
          simp only [noSpecialKeys, Bool.and_eq_true, Bool.not_eq_true',
            beq_eq_false_iff_ne] at h
          obtain ⟨⟨⟨⟨h1, h2⟩, h3⟩, h4⟩, h5⟩ := h
          have hs2 : sizeOf rest ≤ n := by simp at hs; omega
          cases v <;>
            (simp only [graphWalk]; rw [if_neg h2]; exact ih rest hs2 h5)

theorem graphWalk_none (fs : JsonFields) (h : noSpecialKeys fs = true) :
    graphWalk fs = .ok none :=
  graphWalk_none_fuel (sizeOf fs) fs (le_refl _) h

theorem pubWalk_none_fuel :
    ∀ (n : Nat) (fs : JsonFields), sizeOf fs ≤ n → noSpecialKeys fs = true →
      pubWalk fs = .ok none := by
  intro n
  induction n with
  | zero =>
      intro fs hs h
      cases fs with
      | nil => rfl
      | cons k v rest => simp at hs
  | succ n ih =>
      intro fs hs h
      cases fs with
      | nil => rfl
      | cons k v rest =>
          simp only [noSpecialKeys, Bool.and_eq_true, Bool.not_eq_true',
            beq_eq_false_iff_ne] at h
          obtain ⟨⟨⟨⟨h1, h2⟩, h3⟩, h4⟩, h5⟩ := h
          have hs2 : sizeOf rest ≤ n := by simp at hs; omega
          cases v <;>
            (simp only [pubWalk]; rw [if_neg h3]; exact ih rest hs2 h5)

theorem pubWalk_none (fs : JsonFields) (h : noSpecialKeys fs = true) :
    pubWalk fs = .ok none :=
  pubWalk_none_fuel (sizeOf fs) fs (le_refl _) h

theorem processBlock_of_parse_failure (domain : String) (b : ScriptBlock)
    (hp : b.parsed = none) : processBlock domain b = none := by
  unfold processBlock
  split
  · rw [hp]
  · rfl

theorem optTruthy_getD (o : Option String) (h : optTruthy o = true) : o.getD "" ≠ "" := by
  cases o with
  | none => simp [optTruthy] at h
  | some s =>
      simp only [optTruthy, bne_iff_ne] at h
      simpa using h

theorem stripQueryFragment_of_clean (s : String)
    (h : ∀ c ∈ s.data, (!(c == '?') && !(c == '#')) = true) :
    stripQueryFragment s = s := by
  unfold stripQueryFragment
  rw [List.takeWhile_eq_self_iff.mpr h]

/-- C1 counterexample: with every attempt a transport failure (`failingFetch`
wraps `fetch_logo` around a raised timeout) and `max_retry = 3`, the very
first attempt of a fresh task (retry count 1 < 3) is routed to finalization
(`Sum.inl`), not re-enqueued, and the whole run finalizes the domain as a
terminal FAILURE after a single attempt — the claim's re-enqueue of
transport failures below `maxRetry` does not happen. -/
theorem claim_C1_counterexample :
    LogoCrawler.stepTask ⟨3⟩ failingFetch { domain := "x.com", retry := 1, attempts := [] } =
      Sum.inl ⟨LogoCrawler.fetch_logo "x.com" (.failure "connection timeout"),
               [some "connection timeout"]⟩ ∧
    (1 : Nat) < (⟨3⟩ : WorkerCfg).max_retry ∧
    (LogoCrawler.run ⟨3⟩ failingFetch ["x.com"]).map
        (fun r => (r.status, r.attempts.length)) = [(FAILURE_MSG, 1)] := by
  decide

/-- C1 (amended): a transport-failure attempt (status FAILURE) finalizes
the domain immediately as a terminal failure carrying the captured error
message, regardless of the retry count; the scheduler re-enqueues a task
for another attempt (state Retrying) only when the attempt reports
NOTHING_FOUND and its retry count is below `max_retry`. -/
theorem claim_C1_amended (cfg : WorkerCfg) (fr : String → Nat → FetchResult) (t : TaskRec) :
    ((fr t.domain t.retry).status = FAILURE_MSG →
      LogoCrawler.stepTask cfg fr t =
        Sum.inl ⟨fr t.domain t.retry,
          t.attempts ++ [some ((fr t.domain t.retry).error.getD "Unknown error")]⟩) ∧
    ((fr t.domain t.retry).status = NOTHING_FOUND → t.retry < cfg.max_retry →
      LogoCrawler.stepTask cfg fr t =
        Sum.inr ⟨t.domain, t.retry + 1,
          t.attempts ++ [some ((fr t.domain t.retry).error.getD "Unknown error")]⟩) := by
  constructor
  · intro h
    have hf : isFound (fr t.domain t.retry).status = false := by
      rw [h]
      decide
    have hne : (fr t.domain t.retry).status ≠ NOTHING_FOUND := by
      rw [h]
      decide
    simp [LogoCrawler.stepTask, hf, hne]
  · intro h hlt
    have hf : isFound (fr t.domain t.retry).status = false := by
      rw [h]
      decide
    simp [LogoCrawler.stepTask, hf, h, hlt, isFound_nothing]

/-- C1 amended witness: both branches at concrete inputs — a transport
failure at retry 1 finalizes at once, and a nothing-found attempt at retry
1 (below `max_retry = 3`) is re-enqueued with retry 2. -/
theorem claim_C1_amended_witness :
    LogoCrawler.stepTask ⟨3⟩ failingFetch { domain := "x.com", retry := 1, attempts := [] } =
      Sum.inl ⟨failingFetch "x.com" 1, [some "connection timeout"]⟩ ∧
    LogoCrawler.stepTask ⟨3⟩ nothingFetch { domain := "f.com", retry := 1, attempts := [] } =
      Sum.inr ⟨"f.com", 2, [some "No logo found"]⟩ := by
  constructor
  · exact (claim_C1_amended ⟨3⟩ failingFetch
      { domain := "x.com", retry := 1, attempts := [] }).1 rfl
  · exact (claim_C1_amended ⟨3⟩ nothingFetch
      { domain := "f.com", retry := 1, attempts := [] }).2 rfl (by decide)

/-- C2 counterexample: with `max_retry = 3` and every attempt a transport
failure, the domain never succeeds, yet its final record has exactly one
attempt (the transport failure finalized immediately) instead of the
claimed `maxRetry = 3` attempts. -/
theorem claim_C2_counterexample :
    (LogoCrawler.run ⟨3⟩ failingFetch ["fail.com"]).map
        (fun r => (r.status, r.attempts.length)) = [(FAILURE_MSG, 1)] ∧
    (1 : Nat) ≠ (⟨3⟩ : WorkerCfg).max_retry := by
  decide

/-- C2 (amended): for every domain none of whose attempts succeeds, where
every failing attempt is a nothing-found outcome (and `max_retry ≥ 1`),
the final Result Record's attempts sequence has length exactly `max_retry`
and its outcome is the terminal failure NOTHING_FOUND.  (A transport
failure instead finalizes the task at that attempt, so the claim's
"regardless of the failure kind" clause is dropped.) -/
theorem claim_C2_amended (cfg : WorkerCfg) (fr : String → Nat → FetchResult)
    (domains : List String) (h1 : 1 ≤ cfg.max_retry)
    (h2 : ∀ d k, (fr d k).status = NOTHING_FOUND) :
    ∀ r ∈ LogoCrawler.run cfg fr domains,
      r.attempts.length = cfg.max_retry ∧ r.status = NOTHING_FOUND ∧
        isFound r.status = false := by
  intro r hr
  have hperm := run_perm cfg fr domains
  have hr2 : r ∈ domains.map (fun d => taskResult cfg fr (initTask d)) :=
    hperm.mem_iff.mp hr
  obtain ⟨d, hd, hrd⟩ := List.mem_map.mp hr2
  subst hrd
  have hmain := taskResult_nothing cfg fr (cfg.max_retry - 1) (initTask d)
    (fun k => h2 d k)
    (by show (1 : Nat) ≤ cfg.max_retry; omega)
    (by show cfg.max_retry - 1 = cfg.max_retry - 1; rfl)
  refine ⟨?_, hmain.2, ?_⟩
  · rw [hmain.1]
    show 0 + (cfg.max_retry - 1 + 1) = cfg.max_retry
    omega
  · rw [hmain.2]
    exact isFound_nothing

/-- C2 amended witness: the repository's own max-retries scenario — a stub
that always reports NOTHING_FOUND, `max_retry = 3`, one domain — yields a
single final record with exactly 3 attempts. -/
theorem claim_C2_amended_witness :
    ((LogoCrawler.run ⟨3⟩ nothingFetch ["fail.com"]).headD default).attempts.length = 3 := by
  have h := claim_C2_amended ⟨3⟩ nothingFetch ["fail.com"] (by decide)
    (fun d k => rfl)
    ((LogoCrawler.run ⟨3⟩ nothingFetch ["fail.com"]).headD default) (by decide)
  exact h.1

/-- C3: for every configuration, per-attempt fetch behaviour and input
sequence of domains — duplicates included — the run terminates with a
result list whose length equals the length of the input sequence: exactly
one Result Record per submitted domain, none silently dropped even under
repeated failure. -/
theorem claim_C3 (cfg : WorkerCfg) (fr : String → Nat → FetchResult)
    (domains : List String) :
    (LogoCrawler.run cfg fr domains).length = domains.length := by
  have h := (run_perm cfg fr domains).length_eq
  rw [h, List.length_map]

/-- C4: for every domain and successfully fetched and parsed page, the
extraction chain of `fetch_logo` returns a candidate: its status is one of
exactly three found statuses, its source is one of exactly the three
extractor tags, and its logo URL is non-empty — the chain never returns no
candidate, because the default `https://{domain}/favicon.ico` is always a
non-empty string. -/
theorem claim_C4 (domain : String) (page : Page) :
    (LogoCrawler.fetch_logo domain (.success page)).status ∈
        [LOGO_FOUND, FAVICON_FOUND, FALLBACK_FAVICON_FOUND] ∧
      (LogoCrawler.fetch_logo domain (.success page)).source ∈
        ["jsonld_logo", "favicon_logo", "fallback_logo"] ∧
      (LogoCrawler.fetch_logo domain (.success page)).logo ≠ "" := by
  simp only [LogoCrawler.fetch_logo]
  split_ifs with hj hf hb
  · refine ⟨?_, ?_, ?_⟩
    · show LOGO_FOUND ∈ _
      simp
    · show "jsonld_logo" ∈ _
      simp
    · show (LogoCrawler.extract_jsonld_logo domain page.scripts).getD "" ≠ ""
      exact optTruthy_getD _ hj
  · refine ⟨?_, ?_, ?_⟩
    · show FAVICON_FOUND ∈ _
      simp
    · show "favicon_logo" ∈ _
      simp
    · show (LogoCrawler.extract_favicon domain page.linkHrefs).getD "" ≠ ""
      exact optTruthy_getD _ hf
  · refine ⟨?_, ?_, ?_⟩
    · show FALLBACK_FAVICON_FOUND ∈ _
      simp
    · show "fallback_logo" ∈ _
      simp
    · show LogoCrawler.fallback_favicon domain ≠ ""
      exact fallback_ne_empty domain
  · rw [not_ne_iff] at hb
    exact absurd hb (fallback_ne_empty domain)

/-- C5 counterexample: `standardise_url` never returns a "none"; on the
empty string it returns the usable reference `https://example.com/`, and
on a `data:image` URI it returns the URI itself (query and fragment
stripped) — both outputs are non-empty strings, contradicting the claim
that these inputs yield no usable logo reference. -/
theorem claim_C5_counterexample :
    LogoCrawler.standardise_url "example.com" "" = "https://example.com/" ∧
    LogoCrawler.standardise_url "example.com" "data:image/png;base64,abc" =
      "data:image/png;base64,abc" ∧
    LogoCrawler.standardise_url "example.com" "" ≠ "" ∧
    LogoCrawler.standardise_url "example.com" "data:image/png;base64,abc" ≠ "" := by
  decide

/-- C5 (amended): `standardise_url` never returns none.  On an empty
`rawURL` it returns `https://{domain}/` (for a domain free of `?` and `#`),
and on a `rawURL` containing `data:image` that is not scheme-relative it
returns the `rawURL` itself with query and fragment stripped, rather than
rejecting it. -/
theorem claim_C5_amended (domain s : String)
    (hd : ∀ c ∈ domain.data, (!(c == '?') && !(c == '#')) = true)
    (h1 : beginsWith s "//" = false) (h2 : containsStr s "data:image" = true) :
    LogoCrawler.standardise_url domain "" = "https://" ++ domain ++ "/" ∧
    LogoCrawler.standardise_url domain s = stripQueryFragment s := by
  constructor
  · have c1 : beginsWith "" "//" = false := rfl
    have c2 : containsStr "" "http" = false := rfl
    have c3 : containsStr "" "data:image" = false := rfl
    have c4 : beginsWith "" "/" = false := rfl
    have hclean : ∀ c ∈ ("https://" ++ domain ++ "/").data,
        (!(c == '?') && !(c == '#')) = true := by
      intro c hc
      rw [String.data_append, String.data_append] at hc
      have hall1 : (("https://" : String).data.all
          fun c => !(c == '?') && !(c == '#')) = true := by decide
      have hall2 : (("/" : String).data.all
          fun c => !(c == '?') && !(c == '#')) = true := by decide
      rcases List.mem_append.mp hc with hc2 | hc2
      · rcases List.mem_append.mp hc2 with hc3 | hc3
        · exact List.all_eq_true.mp hall1 c hc3
        · exact hd c hc3
      · exact List.all_eq_true.mp hall2 c hc2
    simp only [LogoCrawler.standardise_url, c1, c2, c3, c4, Bool.not_false,
      Bool.and_self, if_true, Bool.false_eq_true, if_false, String.append_empty]
    exact stripQueryFragment_of_clean _ hclean
  · simp only [LogoCrawler.standardise_url, h1, h2, Bool.not_true, Bool.and_false,
      Bool.false_eq_true, if_false]

/-- C5 amended witness: the amended statement at a concrete domain and a
concrete `data:image` URI carrying a query string. -/
theorem claim_C5_amended_witness :
    LogoCrawler.standardise_url "example.com" "" = "https://example.com/" ∧
    LogoCrawler.standardise_url "example.com" "data:image/png;v=1?x=2" =
      "data:image/png;v=1" := by
  have h := claim_C5_amended "example.com" "data:image/png;v=1?x=2"
    (by decide) (by decide) (by decide)
  exact ⟨h.1, h.2⟩

/-- C6 counterexample: the recursive key search is case-sensitive, not
case-insensitive — on the object with the single key `"Logo"` the
extractor finds nothing, while the same object spelled `"logo"` yields the
candidate, so the two spellings are not matched the same way. -/
theorem claim_C6_counterexample :
    extract_logo (Json.obj (JsonFields.cons "Logo" (Json.str "a.png") JsonFields.nil)) ≠
      extract_logo (Json.obj (JsonFields.cons "logo" (Json.str "a.png") JsonFields.nil)) := by
  have e1 : extract_logo (Json.obj (JsonFields.cons "Logo" (Json.str "a.png")
      JsonFields.nil)) = Except.ok Json.null := rfl
  have e2 : extract_logo (Json.obj (JsonFields.cons "logo" (Json.str "a.png")
      JsonFields.nil)) = Except.ok (Json.str "a.png") := rfl
  rw [e1, e2]
  intro h
  injection h with h2
  exact Json.noConfusion h2

/-- C6 (amended): the key search matches the keys `logo`, `@graph`,
`publisher` and `url` exactly and case-sensitively: an object none of whose
keys is one of these four exact spellings (so in particular any key that
differs only in letter case, such as `"Logo"`) yields no candidate, while
the lower-case spelling `{"logo": "a.png"}` yields the candidate
`a.png`. -/
theorem claim_C6_amended (fs : JsonFields) (h : noSpecialKeys fs = true) :
    extract_logo (Json.obj fs) = Except.ok Json.null ∧
    extract_logo (Json.obj (JsonFields.cons "logo" (Json.str "a.png") JsonFields.nil)) =
      Except.ok (Json.str "a.png") := by
  refine ⟨?_, rfl⟩
  have h1 := logoWalk_none fs h
  have h2 := graphWalk_none fs h
  have h3 := pubWalk_none fs h
  have h4 := urlWalk_none fs h
  simp [extract_logo, h1, h2, h3, h4]

/-- C6 amended witness: the amended statement applied to the concrete
object with the single, differently-cased key `"Logo"`. -/
theorem claim_C6_amended_witness :
    extract_logo (Json.obj (JsonFields.cons "Logo" (Json.str "a.png") JsonFields.nil)) =
      Except.ok Json.null :=
  (claim_C6_amended (JsonFields.cons "Logo" (Json.str "a.png") JsonFields.nil)
    (by decide)).1

/-- C7: the favicon extractor selects from the png group when non-empty,
else the ico group, else the full href set, picking the longest href of the
chosen group (first-seen on ties) and normalising it — stated as equality
with `faviconSpecSelect`, the selection rule written from the spec's words;
on the example set `{"favicon.ico", "logo.png", "logo2.png?v=1"}` (in every
iteration order of the set) the normalised selection ends with
`"logo2.png"`, and on an empty href set the extractor returns none. -/
theorem claim_C7 :
    (∀ (domain : String) (hrefs : List String),
        LogoCrawler.extract_favicon domain hrefs = faviconSpecSelect domain hrefs) ∧
    ([["favicon.ico", "logo.png", "logo2.png?v=1"],
      ["favicon.ico", "logo2.png?v=1", "logo.png"],
      ["logo.png", "favicon.ico", "logo2.png?v=1"],
      ["logo.png", "logo2.png?v=1", "favicon.ico"],
      ["logo2.png?v=1", "favicon.ico", "logo.png"],
      ["logo2.png?v=1", "logo.png", "favicon.ico"]].all
        (fun hrefs =>
          strEndsWith ((LogoCrawler.extract_favicon "example.com" hrefs).getD "")
            "logo2.png") = true) ∧
    (∀ domain : String, LogoCrawler.extract_favicon domain [] = none) := by
  refine ⟨fun domain hrefs => rfl, by decide, fun domain => rfl⟩

/-- C8: a structured-data block whose content fails to parse as JSON is
skipped at the block level and never aborts extraction — for every block
sequence the extractor's result equals its result on the subsequence of
well-formed (successfully parsed) blocks; in particular a malformed block
followed by a well-formed block containing a logo still yields that
logo. -/
theorem claim_C8 :
    (∀ (domain : String) (blocks : List ScriptBlock),
        LogoCrawler.extract_jsonld_logo domain blocks =
          LogoCrawler.extract_jsonld_logo domain
            (blocks.filter fun b => b.parsed.isSome)) ∧
    LogoCrawler.extract_jsonld_logo "example.com"
        [⟨some "not json logo", none⟩,
         ⟨some "\x7b\"logo\": \"a.png\"\x7d",
          some (Json.obj (JsonFields.cons "logo" (Json.str "a.png") JsonFields.nil))⟩] =
      some "https://example.com/a.png" := by
  refine ⟨?_, rfl⟩
  intro domain blocks
  induction blocks with
  | nil => rfl
  | cons b bs ih =>
      cases hp : b.parsed with
      | none =>
          have hpb := processBlock_of_parse_failure domain b hp
          simp only [LogoCrawler.extract_jsonld_logo, List.filter_cons, hp, hpb,
            Option.isSome_none, Bool.false_eq_true, if_false]
          exact ih
      | some data =>
          simp only [List.filter_cons, hp, Option.isSome_some, if_true]
          simp only [LogoCrawler.extract_jsonld_logo]
          cases hq : processBlock domain b with
          | some u => simp [hq]
          | none => simp [hq, ih]

/-- C9: with the crawler's own `fetch_logo`, every attempt that completes
without a transport exception carries one of the three found statuses, no
outcome ever carries NOTHING_FOUND (the default-path fallback is a
non-empty string, so that branch is dead), and consequently in a run whose
per-attempt results come from `fetch_logo` every domain finalizes on its
first attempt — the worker's re-enqueue branch never executes. -/
theorem claim_C9 :
    (∀ (domain : String) (page : Page),
        (LogoCrawler.fetch_logo domain (.success page)).status ∈
          [LOGO_FOUND, FAVICON_FOUND, FALLBACK_FAVICON_FOUND]) ∧
    (∀ (domain : String) (o : FetchOutcome),
        (LogoCrawler.fetch_logo domain o).status ≠ NOTHING_FOUND) ∧
    (∀ (cfg : WorkerCfg) (outcomes : String → Nat → FetchOutcome)
        (domains : List String),
        ∀ r ∈ LogoCrawler.run cfg
            (fun d k => LogoCrawler.fetch_logo d (outcomes d k)) domains,
          r.attempts.length = 1) := by
  refine ⟨?_, fetch_logo_status_ne_nothing, ?_⟩
  · intro domain page
    simp only [LogoCrawler.fetch_logo]
    split_ifs with hj hf hb
    · show LOGO_FOUND ∈ _
      simp
    · show FAVICON_FOUND ∈ _
      simp
    · show FALLBACK_FAVICON_FOUND ∈ _
      simp
    · rw [not_ne_iff] at hb
      exact absurd hb (fallback_ne_empty domain)
  · intro cfg outcomes domains r hr
    have hperm := run_perm cfg (fun d k => LogoCrawler.fetch_logo d (outcomes d k)) domains
    have hr2 := hperm.mem_iff.mp hr
    obtain ⟨d, hd, hrd⟩ := List.mem_map.mp hr2
    subst hrd
    have hlen := taskResult_single_attempt cfg
      (fun d k => LogoCrawler.fetch_logo d (outcomes d k)) (initTask d)
      (fetch_logo_status_ne_nothing d (outcomes d 1))
    rw [hlen]
    rfl

/-- C9 witness: a one-domain run whose only attempt is a transport failure
finalizes after exactly one attempt. -/
theorem claim_C9_witness :
    ((LogoCrawler.run ⟨3⟩ (fun d k => LogoCrawler.fetch_logo d (failingOutcome d k))
        ["a.com"]).headD default).attempts.length = 1 :=
  claim_C9.2.2 ⟨3⟩ failingOutcome ["a.com"] _ (by decide)

/-- C10: the summary formatter counts a FALLBACK_FAVICON_FOUND result as
neither a success nor a failure, so any result list containing a
fallback-sourced record has Success + Failure strictly below Total and its
summary Success count strictly below the crawler's own successes counter —
which does record the same record as a success (`isFound` is true on
it). -/
theorem claim_C10 (results : List FinalResult) (r : FinalResult)
    (hr : r ∈ results) (hs : r.status = FALLBACK_FAVICON_FOUND) :
    summarize_success results + summarize_fail results < results.length ∧
    summarize_success results < crawler_successes results ∧
    isFound r.status = true := by
  have hp : (r.status == LOGO_FOUND || r.status == FAVICON_FOUND) = false := by
    rw [hs]
    decide
  have hq : (r.status == NOTHING_FOUND || r.status == FAILURE_MSG) = false := by
    rw [hs]
    decide
  have hif : isFound r.status = true := by
    rw [hs]
    decide
  have hdisj : ∀ x : FinalResult,
      (x.status == LOGO_FOUND || x.status == FAVICON_FOUND) = true →
      (x.status == NOTHING_FOUND || x.status == FAILURE_MSG) = false := by
    intro x hx
    rcases Bool.or_eq_true_iff.mp hx with h | h
    · rw [beq_iff_eq.mp h]
      decide
    · rw [beq_iff_eq.mp h]
      decide
  have himp : ∀ x : FinalResult,
      (x.status == LOGO_FOUND || x.status == FAVICON_FOUND) = true →
      isFound x.status = true := by
    intro x hx
    rcases Bool.or_eq_true_iff.mp hx with h | h
    · rw [beq_iff_eq.mp h]
      decide
    · rw [beq_iff_eq.mp h]
      decide
  refine ⟨?_, ?_, hif⟩
  · exact countP_add_lt_of_mem results _ _ r hr hp hq hdisj
  · have hneg : (fun x : FinalResult => isFound x.status) r = true := hif
    exact countP_lt_of_mem results _ _ r hr hp hneg himp

/-- C10 witness: a singleton result list holding one fallback-sourced
record — the summary sees 0 successes and 0 failures out of 1 total, while
the crawler's successes counter sees 1. -/
theorem claim_C10_witness :
    summarize_success [fallbackRecord] + summarize_fail [fallbackRecord] <
        ([fallbackRecord] : List FinalResult).length ∧
    summarize_success [fallbackRecord] < crawler_successes [fallbackRecord] ∧
    isFound fallbackRecord.status = true :=
  claim_C10 [fallbackRecord] fallbackRecord (by decide) rfl
